import Mathlib

/-!
Shallow embedding of the ledger-indexed storage and query core of the
soroban-rpc repository: the db-package ledger reader/writer
(GetLedger, GetLedgerRange, StreamLedgerRange, trimLedgers) and the
getTransaction RPC method, together with the pieces of the Go standard
library they rely on (encoding/hex, encoding/base64).

Go machine integers are embedded as Nat with explicit reduction modulo
2 ^ 32 where 32-bit overflow matters; Go byte slices are embedded as
List Nat; SQL tables as lists of rows; fallible operations return Except.
The database Select operation itself is assumed not to fail (I/O errors
are outside the model), and reader interfaces consumed by the RPC method
are passed as explicit result values.
-/

namespace SorobanRPC

/-! ### Go encoding/hex -/

/-- Value of one hexadecimal digit, following Go encoding/hex fromHexChar. -/
def fromHexChar (c : Char) : Option Nat :=
  if '0' ≤ c ∧ c ≤ '9' then some (c.toNat - '0'.toNat)
  else if 'a' ≤ c ∧ c ≤ 'f' then some (c.toNat - 'a'.toNat + 10)
  else if 'A' ≤ c ∧ c ≤ 'F' then some (c.toNat - 'A'.toNat + 10)
  else none

/-- Errors of Go encoding/hex Decode. -/
inductive HexError
  | invalidByte (c : Char)
  | errLength
deriving DecidableEq

/-- Upper-case hexadecimal digit character for a value below 16. -/
def hexDigitUpper (n : Nat) : Char :=
  if n < 10 then Char.ofNat (48 + n) else Char.ofNat (55 + n)

/-- Four-digit upper-case hexadecimal rendering, as in the U+ notation of
Go formatting verb %#U (values below 0x10000). -/
def natToHex4 (n : Nat) : String :=
  String.mk [hexDigitUpper (n / 4096 % 16), hexDigitUpper (n / 256 % 16),
    hexDigitUpper (n / 16 % 16), hexDigitUpper (n % 16)]

/-- Error text of Go encoding/hex errors. The quoted-character suffix that
Go formatting verb %#U appends for printable bytes is elided; no claim
depends on it. -/
def HexError.message : HexError → String
  | .invalidByte c => "encoding/hex: invalid byte: U+" ++ natToHex4 c.toNat
  | .errLength => "encoding/hex: odd length hex string"

/-- Go encoding/hex Decode over a whole source: decodes hexadecimal digit
pairs left to right; the first invalid digit inside the paired portion
aborts with invalidByte; an odd trailing digit yields invalidByte when it
is itself invalid and errLength otherwise. -/
def hexDecode : List Char → Except HexError (List Nat)
  | [] => .ok []
  | [c] =>
    match fromHexChar c with
    | none => .error (.invalidByte c)
    | some _ => .error .errLength
  | p :: q :: rest =>
    match fromHexChar p with
    | none => .error (.invalidByte p)
    | some a =>
      match fromHexChar q with
      | none => .error (.invalidByte q)
      | some b =>
        match hexDecode rest with
        | .error e => .error e
        | .ok tail => .ok ((a * 16 + b) :: tail)

/-- Go encoding/hex DecodedLen: x / 2. -/
def hexDecodedLen (x : Nat) : Nat := x / 2

/-! ### Go encoding/base64 (StdEncoding) -/

/-- The standard base64 alphabet. -/
def base64Alphabet : List Char :=
  "ABCDEFGHIJKLMNOPQRSTUVWXYZabcdefghijklmnopqrstuvwxyz0123456789+/".data

/-- Character of the standard base64 alphabet at a 6-bit index. -/
def base64Char (n : Nat) : Char := base64Alphabet.getD n 'A'

/-- Go base64.StdEncoding encoding of a byte sequence, with = padding. -/
def base64Encode : List Nat → List Char
  | [] => []
  | [a] => [base64Char (a / 4 % 64), base64Char (a % 4 * 16), '=', '=']
  | [a, b] => [base64Char (a / 4 % 64), base64Char ((a % 4 * 16 + b / 16) % 64),
      base64Char (b % 16 * 4), '=']
  | a :: b :: c :: rest =>
    base64Char (a / 4 % 64) :: base64Char ((a % 4 * 16 + b / 16) % 64) ::
      base64Char ((b % 16 * 4 + c / 64) % 64) :: base64Char (c % 64) :: base64Encode rest

/-- Go base64.StdEncoding.EncodeToString. -/
def base64String (bs : List Nat) : String := String.mk (base64Encode bs)

/-- The base64EncodeSlice helper of the methods package: element-wise
base64 encoding of a slice of byte slices. -/
def base64EncodeSlice (xs : List (List Nat)) : List String := xs.map base64String

/-! ### The db package ledger store -/

/-- One decoded row of the ledger_close_meta table: the LedgerCloseMeta
blob, reduced to the two fields the queries read, LedgerSequence and
LedgerCloseTime. -/
structure LedgerCloseMeta where
  sequence : Nat
  closeTime : Int
deriving DecidableEq

/-- The ledgerbucketwindow.LedgerInfo pair of sequence and close time. -/
structure LedgerInfo where
  sequence : Nat
  closeTime : Int
deriving DecidableEq

/-- The ledgerbucketwindow.LedgerRange pair of first and last ledger. -/
structure LedgerRange where
  firstLedger : LedgerInfo
  lastLedger : LedgerInfo
deriving DecidableEq

/-- The in-memory latest-ledger cache of the db handle (latestLedgerSeq,
latestLedgerCloseTime), read under the cache lock. -/
structure LedgerCache where
  latestLedgerSeq : Nat
  latestLedgerCloseTime : Int
deriving DecidableEq

/-- The state a ledgerReader sees: the cache and the rows of the
ledger_close_meta table (in table order). -/
structure DBState where
  cache : LedgerCache
  store : List LedgerCloseMeta
deriving DecidableEq

/-- Errors of the ledger reader. Only the empty-store error is reachable in
the model (Select itself is assumed not to fail). -/
inductive DBErr
  | emptyDB
deriving DecidableEq

/-- Modelled from the spec: the rendering of the empty-store error value
ErrEmptyDB, which is declared outside the provided sources; the spec only
fixes that it is the error returned when no rows exist. -/
def DBErr.message : DBErr → String
  | .emptyDB => "DB is empty"

/-- Which Select statements GetLedgerRange issues against the store:
the fast-path minimum-sequence-row query, or the slow-path query for the
rows at the minimum and maximum sequence. -/
inductive StoreQuery
  | minOnly
  | minMax
deriving DecidableEq

/-- Rows whose sequence equals the minimum sequence of the table
(the SQL condition sequence = (SELECT MIN(sequence) FROM t); empty when
the table is empty). -/
def minSeqRows (store : List LedgerCloseMeta) : List LedgerCloseMeta :=
  store.filter (fun r => store.all (fun s => r.sequence ≤ s.sequence))

/-- Rows whose sequence equals the minimum or the maximum sequence of the
table, ordered by sequence ascending (the slow-path query). -/
def minMaxSeqRows (store : List LedgerCloseMeta) : List LedgerCloseMeta :=
  List.insertionSort (fun a b => a.sequence ≤ b.sequence)
    (store.filter (fun r => store.all (fun s => r.sequence ≤ s.sequence)
      || store.all (fun s => s.sequence ≤ r.sequence)))

/-- GetLedger of the db ledgerReader: point lookup by sequence. Zero rows
is (zero value, found = false); one row is (row, true); more than one row
is an error. -/
def GetLedger (store : List LedgerCloseMeta) (sequence : Nat) :
    Except String (LedgerCloseMeta × Bool) :=
  let results := store.filter (fun r => r.sequence = sequence)
  match results with
  | [] => .ok ({ sequence := 0, closeTime := 0 }, false)
  | [x] => .ok (x, true)
  | _ => .error ("multiple lcm entries (" ++ toString results.length ++ ") for sequence "
      ++ toString sequence ++ " in table \"ledger_close_meta\"")

/-- GetLedgerRange of the db ledgerReader, instrumented with the list of
Select statements issued. When the cached latest sequence is non-zero,
one query fetches the minimum-sequence row only and the last ledger comes
from the cache; otherwise one query fetches the minimum and maximum rows
ordered ascending and the result takes the first and last of them. Either
way an empty query result is the empty-store error. -/
def GetLedgerRange (db : DBState) : Except DBErr LedgerRange × List StoreQuery :=
  if db.cache.latestLedgerSeq ≠ 0 then
    match minSeqRows db.store with
    | [] => (.error .emptyDB, [.minOnly])
    | first :: _ =>
      (.ok { firstLedger := { sequence := first.sequence, closeTime := first.closeTime },
             lastLedger := { sequence := db.cache.latestLedgerSeq,
                             closeTime := db.cache.latestLedgerCloseTime } },
       [.minOnly])
  else
    match minMaxSeqRows db.store with
    | [] => (.error .emptyDB, [.minMax])
    | first :: rest =>
      let last := (first :: rest).getLast (List.cons_ne_nil first rest)
      (.ok { firstLedger := { sequence := first.sequence, closeTime := first.closeTime },
             lastLedger := { sequence := last.sequence, closeTime := last.closeTime } },
       [.minMax])

/-- Rows the StreamLedgerRange query returns: sequences in the inclusive
interval from startLedger to endLedger, ordered by sequence ascending. -/
def queryLedgerRangeRows (store : List LedgerCloseMeta) (startLedger endLedger : Nat) :
    List LedgerCloseMeta :=
  List.insertionSort (fun a b => a.sequence ≤ b.sequence)
    (store.filter (fun r => decide (startLedger ≤ r.sequence) && decide (r.sequence ≤ endLedger)))

/-- The row loop of the stream readers: each row is scanned and handed to
the sink; a non-nil sink result stops the loop and is returned. The first
component records the rows actually handed to the sink, in order. -/
def runSink (f : LedgerCloseMeta → Except String Unit) :
    List LedgerCloseMeta → List LedgerCloseMeta × Except String Unit
  | [] => ([], .ok ())
  | x :: xs =>
    match f x with
    | .error e => ([x], .error e)
    | .ok _ =>
      let rest := runSink f xs
      (x :: rest.1, rest.2)

/-- StreamLedgerRange of the db ledgerReader, instrumented with the list of
rows delivered to the sink. -/
def StreamLedgerRange (store : List LedgerCloseMeta) (startLedger endLedger : Nat)
    (f : LedgerCloseMeta → Except String Unit) :
    List LedgerCloseMeta × Except String Unit :=
  runSink f (queryLedgerRangeRows store startLedger endLedger)

/-- trimLedgers of the db ledgerWriter, over unsigned 32-bit arithmetic:
no-op when latest + 1 is at most the retention window, otherwise delete
every row whose sequence is below latest + 1 - retentionWindow. -/
def trimLedgers (latestLedgerSeq retentionWindow : Nat) (store : List LedgerCloseMeta) :
    List LedgerCloseMeta :=
  if (latestLedgerSeq + 1) % 2 ^ 32 ≤ retentionWindow then store
  else
    let cutoff := (latestLedgerSeq + 1) % 2 ^ 32 - retentionWindow
    store.filter (fun r => decide (¬ r.sequence < cutoff))

/-! ### The methods package: getTransaction -/

/-- Status string constants of the methods package. -/
def TransactionStatusSuccess : String := "SUCCESS"

/-- The status for a hash not present in the transaction store. -/
def TransactionStatusNotFound : String := "NOT_FOUND"

/-- The status for a found transaction whose Successful flag is false. -/
def TransactionStatusFailed : String := "FAILED"

/-- The json value of the xdrFormat request field. -/
def FormatJSON : String := "json"

/-- The base64 value of the xdrFormat request field. -/
def FormatBase64 : String := "base64"

/-- JSON-RPC invalid-params error code used by the jrpc2 package. -/
def jrpc2InvalidParams : Int := -32602

/-- JSON-RPC internal-error code used by the jrpc2 package. -/
def jrpc2InternalError : Int := -32603

/-- A jrpc2.Error value: numeric code and message. -/
structure Jrpc2Error where
  code : Int
  message : String
deriving DecidableEq

/-- Modelled from the spec: IsValidFormat (declared outside the provided
sources) accepts the optional xdrFormat values, the empty default,
base64 and json, and rejects anything else. -/
def IsValidFormat (format : String) : Except String Unit :=
  if format = "" ∨ format = FormatBase64 ∨ format = FormatJSON then .ok ()
  else .error ("unknown format: " ++ format)

/-- The db.Transaction record consumed by GetTransaction: application
order, flags, the owning ledger, and the opaque blobs. -/
structure Transaction where
  applicationOrder : Int
  feeBump : Bool
  successful : Bool
  ledger : LedgerInfo
  result : List Nat
  envelope : List Nat
  meta : List Nat
  events : List (List Nat)
deriving DecidableEq

/-- Result of the transaction reader: the not-found sentinel
ErrNoTransaction, another error, or the transaction. -/
inductive TxLookupErr
  | noTransaction
  | other (msg : String)
deriving DecidableEq

/-- Modelled from the spec: the structured JSON rendering of an opaque
blob used when xdrFormat is json (transactionToJSON and jsonifySlice live
outside the provided sources). The decoded structure is opaque here, so
the rendering is taken directly from the raw bytes, and conversion
failures are not modelled. -/
def jsonifyBlob (bs : List Nat) : String := toString bs

/-- The GetTransactionResponse of the methods package. Fields that Go
leaves at their zero value (and that json omitempty therefore omits) hold
the corresponding default here; a diagnostic-events field is present in
the rendered response exactly when its list is non-empty. -/
structure GetTransactionResponse where
  status : String := ""
  latestLedger : Nat := 0
  latestLedgerCloseTime : Int := 0
  oldestLedger : Nat := 0
  oldestLedgerCloseTime : Int := 0
  applicationOrder : Int := 0
  feeBump : Bool := false
  envelopeXdr : String := ""
  envelopeJson : String := ""
  resultXdr : String := ""
  resultJson : String := ""
  resultMetaXdr : String := ""
  resultMetaJson : String := ""
  ledger : Nat := 0
  ledgerCloseTime : Int := 0
  diagnosticEventsXdr : List String := []
  diagnosticEventsJson : List String := []
deriving DecidableEq

/-- The GetTransactionRequest of the methods package. -/
structure GetTransactionRequest where
  hash : String
  format : String := ""
deriving DecidableEq

/-- GetTransaction of the methods package. The transaction reader and the
ledger reader are consumed through their results for this request:
rangeRes is what ledgerReader.GetLedgerRange returns and txRes what
reader.GetTransaction returns for the decoded hash. The checks run in
source order: format validation, hash length, hex decoding, ledger range,
transaction lookup, then response assembly. -/
def GetTransaction (rangeRes : Except DBErr LedgerRange)
    (txRes : Except TxLookupErr Transaction)
    (request : GetTransactionRequest) : Except Jrpc2Error GetTransactionResponse :=
  match IsValidFormat request.format with
  | .error e => .error { code := jrpc2InvalidParams, message := e }
  | .ok _ =>
    if hexDecodedLen request.hash.length ≠ 32 then
      .error { code := jrpc2InvalidParams,
               message := "unexpected hash length (" ++ toString request.hash.length ++ ")" }
    else
      match hexDecode request.hash.data with
      | .error e => .error { code := jrpc2InvalidParams,
                             message := "incorrect hash: " ++ e.message }
      | .ok _ =>
        match rangeRes with
        | .error e => .error { code := jrpc2InternalError,
                               message := "unable to get ledger range: " ++ e.message }
        | .ok storeRange =>
          let response : GetTransactionResponse :=
            { latestLedger := storeRange.lastLedger.sequence,
              latestLedgerCloseTime := storeRange.lastLedger.closeTime,
              oldestLedger := storeRange.firstLedger.sequence,
              oldestLedgerCloseTime := storeRange.firstLedger.closeTime }
          match txRes with
          | .error .noTransaction => .ok { response with status := TransactionStatusNotFound }
          | .error (.other msg) => .error { code := jrpc2InternalError, message := msg }
          | .ok tx =>
            let response1 := { response with
              applicationOrder := tx.applicationOrder,
              feeBump := tx.feeBump,
              ledger := tx.ledger.sequence,
              ledgerCloseTime := tx.ledger.closeTime }
            let response2 :=
              if request.format = FormatJSON then
                { response1 with
                  resultJson := jsonifyBlob tx.result,
                  envelopeJson := jsonifyBlob tx.envelope,
                  resultMetaJson := jsonifyBlob tx.meta,
                  diagnosticEventsJson := tx.events.map jsonifyBlob }
              else
                { response1 with
                  resultXdr := base64String tx.result,
                  envelopeXdr := base64String tx.envelope,
                  resultMetaXdr := base64String tx.meta,
                  diagnosticEventsXdr := base64EncodeSlice tx.events }
            .ok { response2 with
              status := if tx.successful then TransactionStatusSuccess
                        else TransactionStatusFailed }

/-- GetTransaction composed with the ledgerReader of the db package: the
ledger range is the one GetLedgerRange reads from the given database
state under the cache discipline. -/
def GetTransactionFromDB (db : DBState) (txRes : Except TxLookupErr Transaction)
    (request : GetTransactionRequest) : Except Jrpc2Error GetTransactionResponse :=
  GetTransaction (GetLedgerRange db).1 txRes request

/-! ### Concrete inputs for witnesses and counterexamples -/

/-- A 64-character hexadecimal hash string. -/
def hash64 : String := "aaaaaaaaaaaaaaaaaaaaaaaaaaaaaaaaaaaaaaaaaaaaaaaaaaaaaaaaaaaaaaaa"

/-- A 65-character hash string (odd length, hex digits only). -/
def hash65 : String := "aaaaaaaaaaaaaaaaaaaaaaaaaaaaaaaaaaaaaaaaaaaaaaaaaaaaaaaaaaaaaaaaa"

/-- A sample ledger range for single-ledger states. -/
def exRange : LedgerRange :=
  { firstLedger := { sequence := 100, closeTime := 1700000000 },
    lastLedger := { sequence := 100, closeTime := 1700000000 } }

/-- A found transaction that succeeded and still carries one diagnostic
event blob. -/
def exSuccessTx : Transaction :=
  { applicationOrder := 1, feeBump := false, successful := true,
    ledger := { sequence := 100, closeTime := 1700000000 },
    result := [], envelope := [], meta := [], events := [[0]] }

/-- A found transaction that failed. -/
def exFailedTx : Transaction :=
  { applicationOrder := 2, feeBump := false, successful := false,
    ledger := { sequence := 100, closeTime := 1700000000 },
    result := [], envelope := [], meta := [], events := [[1]] }

/-- A store holding ledgers 12 through 15. -/
def exStore1215 : List LedgerCloseMeta :=
  [{ sequence := 12, closeTime := 0 }, { sequence := 13, closeTime := 0 },
   { sequence := 14, closeTime := 0 }, { sequence := 15, closeTime := 0 }]

/-- A sink that signals done upon seeing ledger 13. -/
def exDoneSink (l : LedgerCloseMeta) : Except String Unit :=
  if l.sequence = 13 then .error "done" else .ok ()

/-- A sink that always accepts. -/
def exOkSink (_ : LedgerCloseMeta) : Except String Unit := .ok ()

/-- A database state with a warm cache over the 12..15 store. -/
def exDB : DBState :=
  { cache := { latestLedgerSeq := 15, latestLedgerCloseTime := 0 }, store := exStore1215 }

/-- A database state with an empty store and cold cache. -/
def exEmptyDB : DBState :=
  { cache := { latestLedgerSeq := 0, latestLedgerCloseTime := 0 }, store := [] }

/-- A store holding two rows with the same sequence, violating the primary
key. -/
def exDupStore : List LedgerCloseMeta :=
  [{ sequence := 12, closeTime := 0 }, { sequence := 12, closeTime := 1 }]

/-- The not-found response over the ranges of exDB. -/
def exNotFoundResp : GetTransactionResponse :=
  { status := TransactionStatusNotFound, latestLedger := 15, latestLedgerCloseTime := 0,
    oldestLedger := 12, oldestLedgerCloseTime := 0 }

instance {ε α : Type} [DecidableEq ε] [DecidableEq α] : DecidableEq (Except ε α) :=
  fun x y =>
    match x, y with
    | .ok a, .ok b => decidable_of_iff (a = b) (by simp)
    | .error a, .error b => decidable_of_iff (a = b) (by simp)
    | .ok _, .error _ => isFalse (fun h => Except.noConfusion h)
    | .error _, .ok _ => isFalse (fun h => Except.noConfusion h)

/-! ### Order instances for the sequence comparison used by the sorted
queries -/

instance : IsTotal LedgerCloseMeta (fun a b => a.sequence ≤ b.sequence) :=
  ⟨fun a b => Nat.le_total a.sequence b.sequence⟩

instance : IsTrans LedgerCloseMeta (fun a b => a.sequence ≤ b.sequence) :=
  ⟨fun _ _ _ hab hbc => Nat.le_trans hab hbc⟩

/-! ### Helper lemmas -/

theorem hexDecode_ok_length : ∀ (l : List Char) (bs : List Nat),
    hexDecode l = Except.ok bs → l.length = 2 * bs.length
  | [], bs, h => by
    simp only [hexDecode] at h
    cases h
    rfl
  | [c], bs, h => by
    simp only [hexDecode] at h
    split at h <;> cases h
  | p :: q :: rest, bs, h => by
    simp only [hexDecode] at h
    split at h
    · cases h
    · split at h
      · cases h
      · split at h
        · cases h
        · rename_i tail htail
          cases h
          have ih := hexDecode_ok_length rest tail htail
          simp only [List.length_cons, ih]
          omega

theorem mem_minSeqRows (store : List LedgerCloseMeta) (r : LedgerCloseMeta)
    (h : r ∈ minSeqRows store) : r ∈ store ∧ ∀ s ∈ store, r.sequence ≤ s.sequence := by
  unfold minSeqRows at h
  rw [List.mem_filter] at h
  refine ⟨h.1, fun s hs => ?_⟩
  have hall := h.2
  rw [List.all_eq_true] at hall
  exact of_decide_eq_true (hall s hs)

theorem runSink_trace_append (f : LedgerCloseMeta → Except String Unit) :
    ∀ l : List LedgerCloseMeta, ∃ t, (runSink f l).1 ++ t = l
  | [] => ⟨[], rfl⟩
  | x :: xs => by
    cases hf : f x with
    | error e => exact ⟨xs, by simp [runSink, hf]⟩
    | ok u =>
      obtain ⟨t, ht⟩ := runSink_trace_append f xs
      exact ⟨t, by simp [runSink, hf, ht]⟩

theorem runSink_ok_trace (f : LedgerCloseMeta → Except String Unit) :
    ∀ l : List LedgerCloseMeta, (runSink f l).2 = Except.ok () → (runSink f l).1 = l
  | [] => fun _ => rfl
  | x :: xs => by
    intro h
    cases hf : f x with
    | error e => rw [show runSink f (x :: xs) = ([x], .error e) by simp [runSink, hf]] at h ⊢; cases h
    | ok u =>
      simp only [runSink, hf] at h ⊢
      exact congrArg (x :: ·) (runSink_ok_trace f xs h)

theorem runSink_all_ok (f : LedgerCloseMeta → Except String Unit) :
    ∀ l : List LedgerCloseMeta, (∀ x ∈ l, f x = Except.ok ()) → runSink f l = (l, Except.ok ())
  | [] => fun _ => rfl
  | x :: xs => by
    intro h
    have hx := h x (List.mem_cons_self x xs)
    have hxs := runSink_all_ok f xs (fun y hy => h y (List.mem_cons_of_mem x hy))
    simp [runSink, hx, hxs]

theorem runSink_error_shape (f : LedgerCloseMeta → Except String Unit) :
    ∀ (l : List LedgerCloseMeta) (e : String), (runSink f l).2 = Except.error e →
      ∃ pre x, (runSink f l).1 = pre ++ [x] ∧ f x = Except.error e ∧
        ∀ y ∈ pre, f y = Except.ok ()
  | [], e, h => by cases h
  | x :: xs, e, h => by
    cases hf : f x with
    | error e0 =>
      rw [show runSink f (x :: xs) = ([x], .error e0) by simp [runSink, hf]] at h ⊢
      cases h
      exact ⟨[], x, rfl, hf, by simp⟩
    | ok u =>
      simp only [runSink, hf] at h ⊢
      obtain ⟨pre, y, h1, h2, h3⟩ := runSink_error_shape f xs e h
      refine ⟨x :: pre, y, by simp [h1], h2, ?_⟩
      intro z hz
      rcases List.mem_cons.mp hz with rfl | hz
      · exact hf
      · exact h3 z hz

theorem queryLedgerRangeRows_perm (store : List LedgerCloseMeta)
    (startLedger endLedger : Nat) :
    (queryLedgerRangeRows store startLedger endLedger).Perm
      (store.filter (fun r => decide (startLedger ≤ r.sequence)
        && decide (r.sequence ≤ endLedger))) :=
  List.perm_insertionSort _ _

theorem queryLedgerRangeRows_sorted (store : List LedgerCloseMeta)
    (startLedger endLedger : Nat) :
    List.Pairwise (fun a b => a.sequence ≤ b.sequence)
      (queryLedgerRangeRows store startLedger endLedger) :=
  List.sorted_insertionSort _ _

/-! ### Claim theorems -/

/-- C5: for latest sequence L and retention window W in the unsigned
32-bit range, trimming is a no-op when L + 1 is at most W (computed mod
2 ^ 32), and otherwise deletes exactly the rows whose sequence is below
L + 1 - W. -/
theorem trimLedgers_deletes_below_cutoff (latestLedgerSeq retentionWindow : Nat)
    (store : List LedgerCloseMeta)
    (_hlat : latestLedgerSeq < 2 ^ 32) (_hret : retentionWindow < 2 ^ 32) :
    ((latestLedgerSeq + 1) % 2 ^ 32 ≤ retentionWindow →
      trimLedgers latestLedgerSeq retentionWindow store = store) ∧
    (retentionWindow < (latestLedgerSeq + 1) % 2 ^ 32 →
      ∀ r, r ∈ trimLedgers latestLedgerSeq retentionWindow store ↔
        r ∈ store ∧ ¬ r.sequence < (latestLedgerSeq + 1) % 2 ^ 32 - retentionWindow) := by
  constructor
  · intro h
    unfold trimLedgers
    rw [if_pos h]
  · intro h r
    have hn : ¬ (latestLedgerSeq + 1) % 2 ^ 32 ≤ retentionWindow := by omega
    unfold trimLedgers
    rw [if_neg hn, List.mem_filter]
    simp

theorem trimLedgers_deletes_below_cutoff_witness :
    ({ sequence := 2, closeTime := 0 } : LedgerCloseMeta) ∈ trimLedgers 5 3 exDupStore ↔
      ({ sequence := 2, closeTime := 0 } : LedgerCloseMeta) ∈ exDupStore ∧
        ¬ ({ sequence := 2, closeTime := 0 } : LedgerCloseMeta).sequence
          < (5 + 1) % 2 ^ 32 - 3 :=
  (trimLedgers_deletes_below_cutoff 5 3 exDupStore (by norm_num) (by norm_num)).2
    (by norm_num) _

/-- C7: GetLedger returns the zero ledger and found = false when no row
matches the sequence, the row and found = true when exactly one matches,
and an error when more than one matches. -/
theorem getLedger_found_cases (store : List LedgerCloseMeta) (sequence : Nat) :
    (store.filter (fun r => r.sequence = sequence) = [] →
      GetLedger store sequence = .ok ({ sequence := 0, closeTime := 0 }, false)) ∧
    (∀ x, store.filter (fun r => r.sequence = sequence) = [x] →
      GetLedger store sequence = .ok (x, true)) ∧
    (2 ≤ (store.filter (fun r => r.sequence = sequence)).length →
      ∃ e, GetLedger store sequence = .error e) := by
  refine ⟨?_, ?_, ?_⟩
  · intro h
    simp [GetLedger, h]
  · intro x h
    simp [GetLedger, h]
  · intro h
    rcases hf : store.filter (fun r => r.sequence = sequence) with _ | ⟨a, _ | ⟨b, rest⟩⟩
    · rw [hf] at h; simp at h
    · rw [hf] at h; simp at h
    · refine ⟨"multiple lcm entries (" ++ toString (rest.length + 1 + 1) ++ ") for sequence "
        ++ toString sequence ++ " in table \"ledger_close_meta\"", ?_⟩
      simp [GetLedger, hf]

theorem getLedger_found_cases_witness : ∃ e, GetLedger exDupStore 12 = .error e :=
  (getLedger_found_cases exDupStore 12).2.2 (by decide)

/-- C8 counterexample: with ledgers 12..15 stored, a sink that signals
done upon seeing 13 receives exactly 12 and 13, and the stream result is
the done signal as an error, not the claimed error-free stop. -/
theorem streamLedgerRange_done_signal_errors :
    (StreamLedgerRange exStore1215 12 15 exDoneSink).1.map (fun r => r.sequence) = [12, 13] ∧
    (StreamLedgerRange exStore1215 12 15 exDoneSink).2 = Except.error "done" ∧
    ¬ (StreamLedgerRange exStore1215 12 15 exDoneSink).2 = Except.ok () := by
  decide

/-- C8 (amended): the sink is invoked once per stored ledger inside the
inclusive range, in ascending sequence order; when the sink signals done
after some ledger, the stream stops, propagating the signal as its
result, without delivering any later ledger of the range. -/
theorem streamLedgerRange_delivery (store : List LedgerCloseMeta)
    (startLedger endLedger : Nat) (f : LedgerCloseMeta → Except String Unit) :
    (∃ t, (StreamLedgerRange store startLedger endLedger f).1 ++ t =
      queryLedgerRangeRows store startLedger endLedger) ∧
    List.Pairwise (· ≤ ·)
      ((StreamLedgerRange store startLedger endLedger f).1.map (fun r => r.sequence)) ∧
    (∀ r ∈ (StreamLedgerRange store startLedger endLedger f).1,
      r ∈ store ∧ startLedger ≤ r.sequence ∧ r.sequence ≤ endLedger) ∧
    ((StreamLedgerRange store startLedger endLedger f).2 = Except.ok () →
      (StreamLedgerRange store startLedger endLedger f).1.Perm
        (store.filter (fun r => decide (startLedger ≤ r.sequence)
          && decide (r.sequence ≤ endLedger)))) ∧
    ((∀ r ∈ queryLedgerRangeRows store startLedger endLedger, f r = Except.ok ()) →
      (StreamLedgerRange store startLedger endLedger f).2 = Except.ok ()) ∧
    (∀ e, (StreamLedgerRange store startLedger endLedger f).2 = Except.error e →
      ∃ pre x, (StreamLedgerRange store startLedger endLedger f).1 = pre ++ [x] ∧
        f x = Except.error e ∧ ∀ y ∈ pre, f y = Except.ok ()) := by
  obtain ⟨t, ht⟩ := runSink_trace_append f (queryLedgerRangeRows store startLedger endLedger)
  have hsub : (StreamLedgerRange store startLedger endLedger f).1.Sublist
      (queryLedgerRangeRows store startLedger endLedger) := by
    rw [← ht]
    exact List.sublist_append_left _ t
  have hsorted := queryLedgerRangeRows_sorted store startLedger endLedger
  have hperm := queryLedgerRangeRows_perm store startLedger endLedger
  refine ⟨⟨t, ht⟩, ?_, ?_, ?_, ?_, ?_⟩
  · rw [List.pairwise_map]
    exact List.Pairwise.sublist hsub hsorted
  · intro r hr
    have hrq : r ∈ queryLedgerRangeRows store startLedger endLedger := hsub.mem hr
    have hrf := hperm.mem_iff.mp hrq
    rw [List.mem_filter] at hrf
    refine ⟨hrf.1, ?_, ?_⟩
    · have := hrf.2
      simp only [Bool.and_eq_true, decide_eq_true_eq] at this
      exact this.1
    · have := hrf.2
      simp only [Bool.and_eq_true, decide_eq_true_eq] at this
      exact this.2
  · intro hok
    rw [show (StreamLedgerRange store startLedger endLedger f).1 =
        queryLedgerRangeRows store startLedger endLedger from
      runSink_ok_trace f _ hok]
    exact hperm
  · intro hall
    rw [show StreamLedgerRange store startLedger endLedger f =
        (queryLedgerRangeRows store startLedger endLedger, Except.ok ()) from
      runSink_all_ok f _ hall]
  · intro e he
    exact runSink_error_shape f _ e he

theorem streamLedgerRange_delivery_witness :
    (StreamLedgerRange exStore1215 12 15 exOkSink).1.Perm
      (exStore1215.filter (fun r => decide (12 ≤ r.sequence)
        && decide (r.sequence ≤ 15))) :=
  (streamLedgerRange_delivery exStore1215 12 15 exOkSink).2.2.2.1 rfl

/-- C6: with a non-zero cached latest sequence, GetLedgerRange issues
exactly the single minimum-sequence-row query; a successful result takes
its last ledger from the cached sequence and close time and its first
ledger from a stored row of minimal sequence. -/
theorem getLedgerRange_warm_cache (db : DBState) (h : db.cache.latestLedgerSeq ≠ 0) :
    (GetLedgerRange db).2 = [StoreQuery.minOnly] ∧
    ∀ r, (GetLedgerRange db).1 = .ok r →
      r.lastLedger.sequence = db.cache.latestLedgerSeq ∧
      r.lastLedger.closeTime = db.cache.latestLedgerCloseTime ∧
      ∃ row, row ∈ db.store ∧ (∀ s ∈ db.store, row.sequence ≤ s.sequence) ∧
        r.firstLedger.sequence = row.sequence ∧ r.firstLedger.closeTime = row.closeTime := by
  unfold GetLedgerRange
  rcases hm : minSeqRows db.store with _ | ⟨first, rest⟩
  · refine ⟨by simp [h], ?_⟩
    intro r hr
    simp [h, hm] at hr
  · refine ⟨by simp [h, hm], ?_⟩
    intro r hr
    simp only [h, if_pos, hm] at hr
    have hmem := mem_minSeqRows db.store first (by rw [hm]; exact List.mem_cons_self _ _)
    rw [if_pos h] at hr
    cases hr
    exact ⟨rfl, rfl, first, hmem.1, hmem.2, rfl, rfl⟩

theorem getLedgerRange_warm_cache_witness :
    (GetLedgerRange exDB).2 = [StoreQuery.minOnly] :=
  (getLedgerRange_warm_cache exDB (by decide)).1

theorem incorrect_hash_message_ne (s t : String) :
    "incorrect hash: " ++ s ≠ "unexpected hash length (" ++ t ++ ")" := by
  intro h
  have h2 : ("incorrect hash: " ++ s).data.head?
      = ("unexpected hash length (" ++ t ++ ")").data.head? := by rw [h]
  rw [show ("incorrect hash: " ++ s).data.head? = some 'i' by
      rw [String.data_append "incorrect hash: " s]; rfl,
    show ("unexpected hash length (" ++ t ++ ")").data.head? = some 'u' by
      rw [String.data_append ("unexpected hash length (" ++ t) ")",
        String.data_append "unexpected hash length (" t]; rfl] at h2
  simp at h2

theorem getTransaction_malformed_result (request : GetTransactionRequest)
    (h : (hexDecode request.hash.data).toOption.map List.length ≠ some 32) :
    ∃ err, (∀ (rangeRes : Except DBErr LedgerRange) (txRes : Except TxLookupErr Transaction),
      GetTransaction rangeRes txRes request = .error err) ∧
      err.code = jrpc2InvalidParams := by
  cases hfmt : IsValidFormat request.format with
  | error e =>
    refine ⟨{ code := jrpc2InvalidParams, message := e }, fun rangeRes txRes => ?_, rfl⟩
    simp [GetTransaction, hfmt]
  | ok u =>
    by_cases hlen : hexDecodedLen request.hash.length ≠ 32
    · refine ⟨⟨jrpc2InvalidParams,
        "unexpected hash length (" ++ toString request.hash.length ++ ")"⟩,
        fun rangeRes txRes => ?_, rfl⟩
      simp [GetTransaction, hfmt, if_pos hlen]
    · rw [not_not] at hlen
      cases hdec : hexDecode request.hash.data with
      | error e =>
        refine ⟨⟨jrpc2InvalidParams, "incorrect hash: " ++ e.message⟩,
          fun rangeRes txRes => ?_, rfl⟩
        simp [GetTransaction, hfmt, hlen, hdec]
      | ok bs =>
        exfalso
        apply h
        rw [hdec]
        have hl := hexDecode_ok_length request.hash.data bs hdec
        have hsl : request.hash.length = request.hash.data.length := rfl
        have h32 : bs.length = 32 := by
          rw [hexDecodedLen, hsl, hl] at hlen
          omega
        simp [Except.toOption, h32]

/-- C4: every request whose hash string does not hex-decode to exactly
32 bytes fails with invalid params, with a result that consults neither
the ledger range nor the transaction reader, and the two-character hash
ab fails with the message unexpected hash length (2). -/
theorem getTransaction_rejects_malformed_hash :
    (∀ (request : GetTransactionRequest) (rangeRes : Except DBErr LedgerRange)
        (txRes : Except TxLookupErr Transaction),
      (hexDecode request.hash.data).toOption.map List.length ≠ some 32 →
      ∃ err, GetTransaction rangeRes txRes request = .error err ∧
        err.code = jrpc2InvalidParams) ∧
    (∀ (request : GetTransactionRequest) (rangeRes rangeRes2 : Except DBErr LedgerRange)
        (txRes txRes2 : Except TxLookupErr Transaction),
      (hexDecode request.hash.data).toOption.map List.length ≠ some 32 →
      GetTransaction rangeRes txRes request = GetTransaction rangeRes2 txRes2 request) ∧
    (∀ (rangeRes : Except DBErr LedgerRange) (txRes : Except TxLookupErr Transaction),
      GetTransaction rangeRes txRes { hash := "ab" } =
        .error { code := jrpc2InvalidParams, message := "unexpected hash length (2)" }) := by
  refine ⟨?_, ?_, ?_⟩
  · intro request rangeRes txRes h
    obtain ⟨err, hall, hcode⟩ := getTransaction_malformed_result request h
    exact ⟨err, hall rangeRes txRes, hcode⟩
  · intro request rangeRes rangeRes2 txRes txRes2 h
    obtain ⟨err, hall, _⟩ := getTransaction_malformed_result request h
    rw [hall rangeRes txRes, hall rangeRes2 txRes2]
  · intro rangeRes txRes
    rfl

theorem getTransaction_rejects_malformed_hash_witness :
    ∃ err, GetTransaction (Except.error DBErr.emptyDB)
        (Except.error TxLookupErr.noTransaction) { hash := "ab" } = .error err ∧
      err.code = jrpc2InvalidParams :=
  getTransaction_rejects_malformed_hash.1 { hash := "ab" } _ _ (by decide)

/-- C10: a 65-character hash passes the decoded-length check (65 / 2 is
32) and the call instead fails at the hex-decode step with invalid
params and an incorrect-hash message, not the unexpected-hash-length
message, with a result that consults neither reader. -/
theorem getTransaction_odd_length_hash (request : GetTransactionRequest)
    (rangeRes : Except DBErr LedgerRange) (txRes : Except TxLookupErr Transaction)
    (hlen : request.hash.length = 65)
    (hfmt : IsValidFormat request.format = .ok ()) :
    ∃ err, GetTransaction rangeRes txRes request = .error err ∧
      err.code = jrpc2InvalidParams ∧
      (∃ he : HexError, err.message = "incorrect hash: " ++ he.message) ∧
      err.message ≠ "unexpected hash length (" ++ toString request.hash.length ++ ")" ∧
      ∀ (rangeRes2 : Except DBErr LedgerRange) (txRes2 : Except TxLookupErr Transaction),
        GetTransaction rangeRes2 txRes2 request = GetTransaction rangeRes txRes request := by
  have hcond : hexDecodedLen request.hash.length = 32 := by rw [hlen]; rfl
  cases hdec : hexDecode request.hash.data with
  | ok bs =>
    exfalso
    have hl := hexDecode_ok_length request.hash.data bs hdec
    have hsl : request.hash.length = request.hash.data.length := rfl
    omega
  | error e =>
    refine ⟨{ code := jrpc2InvalidParams, message := "incorrect hash: " ++ e.message },
      ?_, rfl, ⟨e, rfl⟩, incorrect_hash_message_ne e.message _, ?_⟩
    · simp [GetTransaction, hfmt, hcond, hdec]
    · intro rangeRes2 txRes2
      simp [GetTransaction, hfmt, hcond, hdec]

theorem getTransaction_odd_length_hash_witness :
    ∃ err, GetTransaction (Except.ok exRange) (Except.error TxLookupErr.noTransaction)
        { hash := hash65 } = .error err ∧
      err.code = jrpc2InvalidParams ∧
      (∃ he : HexError, err.message = "incorrect hash: " ++ he.message) ∧
      err.message ≠ "unexpected hash length ("
        ++ toString (GetTransactionRequest.hash { hash := hash65 }).length ++ ")" ∧
      ∀ (rangeRes2 : Except DBErr LedgerRange) (txRes2 : Except TxLookupErr Transaction),
        GetTransaction rangeRes2 txRes2 { hash := hash65 } =
          GetTransaction (Except.ok exRange) (Except.error TxLookupErr.noTransaction)
            { hash := hash65 } :=
  getTransaction_odd_length_hash { hash := hash65 } _ _ (by decide) rfl

theorem getTransaction_notFound_eq (r : LedgerRange) (request : GetTransactionRequest)
    (bs : List Nat)
    (hfmt : IsValidFormat request.format = .ok ())
    (hlen : hexDecodedLen request.hash.length = 32)
    (hdec : hexDecode request.hash.data = .ok bs) :
    GetTransaction (.ok r) (.error .noTransaction) request = .ok
      { status := TransactionStatusNotFound,
        latestLedger := r.lastLedger.sequence,
        latestLedgerCloseTime := r.lastLedger.closeTime,
        oldestLedger := r.firstLedger.sequence,
        oldestLedgerCloseTime := r.firstLedger.closeTime } := by
  simp [GetTransaction, hfmt, hlen, hdec]

theorem getTransaction_otherError_eq (r : LedgerRange) (msg : String)
    (request : GetTransactionRequest) (bs : List Nat)
    (hfmt : IsValidFormat request.format = .ok ())
    (hlen : hexDecodedLen request.hash.length = 32)
    (hdec : hexDecode request.hash.data = .ok bs) :
    GetTransaction (.ok r) (.error (.other msg)) request =
      .error ⟨jrpc2InternalError, msg⟩ := by
  simp [GetTransaction, hfmt, hlen, hdec]

theorem getTransaction_found_eq (r : LedgerRange) (tx : Transaction)
    (request : GetTransactionRequest) (bs : List Nat)
    (hfmt : IsValidFormat request.format = .ok ())
    (hlen : hexDecodedLen request.hash.length = 32)
    (hdec : hexDecode request.hash.data = .ok bs) :
    GetTransaction (.ok r) (.ok tx) request = .ok
      { status := if tx.successful then TransactionStatusSuccess
          else TransactionStatusFailed,
        latestLedger := r.lastLedger.sequence,
        latestLedgerCloseTime := r.lastLedger.closeTime,
        oldestLedger := r.firstLedger.sequence,
        oldestLedgerCloseTime := r.firstLedger.closeTime,
        applicationOrder := tx.applicationOrder,
        feeBump := tx.feeBump,
        envelopeXdr := if request.format = FormatJSON then ""
          else base64String tx.envelope,
        envelopeJson := if request.format = FormatJSON then jsonifyBlob tx.envelope
          else "",
        resultXdr := if request.format = FormatJSON then ""
          else base64String tx.result,
        resultJson := if request.format = FormatJSON then jsonifyBlob tx.result
          else "",
        resultMetaXdr := if request.format = FormatJSON then ""
          else base64String tx.meta,
        resultMetaJson := if request.format = FormatJSON then jsonifyBlob tx.meta
          else "",
        ledger := tx.ledger.sequence,
        ledgerCloseTime := tx.ledger.closeTime,
        diagnosticEventsXdr := if request.format = FormatJSON then []
          else base64EncodeSlice tx.events,
        diagnosticEventsJson := if request.format = FormatJSON then
          tx.events.map jsonifyBlob else [] } := by
  by_cases hfj : request.format = FormatJSON <;>
    simp [GetTransaction, hfmt, hlen, hdec, hfj,
      show IsValidFormat FormatJSON = Except.ok () from rfl]

/-- C2: for a well-formed hash and an available ledger range, the status
is NOT_FOUND exactly on the reader not-found sentinel, SUCCESS exactly
when the transaction is found with successful true, and FAILED exactly
when it is found with successful false. -/
theorem getTransaction_status_classification (r : LedgerRange)
    (txRes : Except TxLookupErr Transaction) (request : GetTransactionRequest)
    (bs : List Nat)
    (hfmt : IsValidFormat request.format = .ok ())
    (hlen : hexDecodedLen request.hash.length = 32)
    (hdec : hexDecode request.hash.data = .ok bs) :
    (txRes = .error .noTransaction →
      ∃ resp, GetTransaction (.ok r) txRes request = .ok resp ∧
        resp.status = TransactionStatusNotFound) ∧
    (∀ tx, txRes = .ok tx →
      ∃ resp, GetTransaction (.ok r) txRes request = .ok resp ∧
        resp.status = (if tx.successful then TransactionStatusSuccess
          else TransactionStatusFailed)) ∧
    (∀ resp, GetTransaction (.ok r) txRes request = .ok resp →
      ((resp.status = TransactionStatusNotFound ↔ txRes = .error .noTransaction) ∧
       (resp.status = TransactionStatusSuccess ↔
         ∃ tx, txRes = .ok tx ∧ tx.successful = true) ∧
       (resp.status = TransactionStatusFailed ↔
         ∃ tx, txRes = .ok tx ∧ tx.successful = false))) := by
  cases txRes with
  | error te =>
    cases te with
    | noTransaction =>
      have heq := getTransaction_notFound_eq r request bs hfmt hlen hdec
      refine ⟨fun _ => ⟨_, heq, rfl⟩, fun tx htx => Except.noConfusion htx,
        fun resp hresp => ?_⟩
      rw [heq] at hresp
      injection hresp with h
      subst h
      refine ⟨?_, ?_, ?_⟩ <;> simp [TransactionStatusNotFound,
        TransactionStatusSuccess, TransactionStatusFailed]
    | other msg =>
      have heq := getTransaction_otherError_eq r msg request bs hfmt hlen hdec
      refine ⟨?_, ?_, ?_⟩
      · intro h
        exact absurd h (by simp)
      · intro tx htx
        exact Except.noConfusion htx
      · intro resp hresp
        rw [heq] at hresp
        exact Except.noConfusion hresp
  | ok tx =>
    have heq := getTransaction_found_eq r tx request bs hfmt hlen hdec
    refine ⟨fun h => Except.noConfusion h, fun tx2 htx => ?_, fun resp hresp => ?_⟩
    · injection htx with h
      subst h
      exact ⟨_, heq, rfl⟩
    · rw [heq] at hresp
      injection hresp with h
      subst h
      cases hsucc : tx.successful with
      | true =>
        refine ⟨?_, ?_, ?_⟩ <;> simp [hsucc, TransactionStatusNotFound,
          TransactionStatusSuccess, TransactionStatusFailed]
      | false =>
        refine ⟨?_, ?_, ?_⟩ <;> simp [hsucc, TransactionStatusNotFound,
          TransactionStatusSuccess, TransactionStatusFailed]

theorem getTransaction_status_classification_witness :
    ∃ resp, GetTransaction (.ok exRange) (.ok exSuccessTx) { hash := hash64 } = .ok resp ∧
      resp.status = (if exSuccessTx.successful then TransactionStatusSuccess
        else TransactionStatusFailed) :=
  (getTransaction_status_classification exRange (.ok exSuccessTx) { hash := hash64 }
    (List.replicate 32 170) rfl rfl (by decide)).2.1 exSuccessTx rfl

/-- C3: every non-error response, the not-found one included, carries the
four range fields of the value GetLedgerRange read from the database
state under the cache discipline. -/
theorem getTransaction_carries_range (db : DBState)
    (txRes : Except TxLookupErr Transaction) (request : GetTransactionRequest)
    (resp : GetTransactionResponse)
    (hres : GetTransactionFromDB db txRes request = .ok resp) :
    ∃ r, (GetLedgerRange db).1 = .ok r ∧
      resp.latestLedger = r.lastLedger.sequence ∧
      resp.latestLedgerCloseTime = r.lastLedger.closeTime ∧
      resp.oldestLedger = r.firstLedger.sequence ∧
      resp.oldestLedgerCloseTime = r.firstLedger.closeTime := by
  unfold GetTransactionFromDB GetTransaction at hres
  split at hres
  · exact (Except.noConfusion hres)
  · split at hres
    · exact (Except.noConfusion hres)
    · split at hres
      · exact (Except.noConfusion hres)
      · split at hres
        · exact (Except.noConfusion hres)
        · rename_i storeRange hrange
          refine ⟨storeRange, hrange, ?_⟩
          split at hres
          · injection hres with h
            subst h
            exact ⟨rfl, rfl, rfl, rfl⟩
          · exact (Except.noConfusion hres)
          · rename_i tx
            injection hres with h
            subst h
            by_cases hfj : request.format = FormatJSON <;>
              cases htx : tx.successful <;>
                simp [hfj, htx]

theorem getTransaction_carries_range_witness :
    ∃ r, (GetLedgerRange exDB).1 = .ok r ∧
      exNotFoundResp.latestLedger = r.lastLedger.sequence ∧
      exNotFoundResp.latestLedgerCloseTime = r.lastLedger.closeTime ∧
      exNotFoundResp.oldestLedger = r.firstLedger.sequence ∧
      exNotFoundResp.oldestLedgerCloseTime = r.firstLedger.closeTime :=
  getTransaction_carries_range exDB (Except.error TxLookupErr.noTransaction)
    { hash := hash64 } exNotFoundResp (by decide)

/-- C9: with an empty store, GetLedgerRange fails with the empty-store
error on both cache paths, and a well-formed getTransaction call over
that state fails with the internal-error code instead of a NOT_FOUND
response. -/
theorem getLedgerRange_empty_store (db : DBState) (hstore : db.store = []) :
    (GetLedgerRange db).1 = .error DBErr.emptyDB ∧
    ∀ (txRes : Except TxLookupErr Transaction) (request : GetTransactionRequest)
      (bs : List Nat),
      IsValidFormat request.format = .ok () →
      hexDecodedLen request.hash.length = 32 →
      hexDecode request.hash.data = .ok bs →
      ∃ err, GetTransactionFromDB db txRes request = .error err ∧
        err.code = jrpc2InternalError := by
  have hrange : (GetLedgerRange db).1 = .error DBErr.emptyDB := by
    unfold GetLedgerRange
    by_cases h0 : db.cache.latestLedgerSeq ≠ 0
    · simp [h0, minSeqRows, hstore]
    · simp [h0, minMaxSeqRows, hstore]
  refine ⟨hrange, ?_⟩
  intro txRes request bs hfmt hlen hdec
  refine ⟨⟨jrpc2InternalError, "unable to get ledger range: " ++ DBErr.emptyDB.message⟩,
    ?_, rfl⟩
  simp [GetTransactionFromDB, GetTransaction, hfmt, hlen, hdec, hrange]

theorem getLedgerRange_empty_store_witness :
    ∃ err, GetTransactionFromDB exEmptyDB (Except.error TxLookupErr.noTransaction)
        { hash := hash64 } = .error err ∧ err.code = jrpc2InternalError :=
  (getLedgerRange_empty_store exEmptyDB rfl).2 (Except.error TxLookupErr.noTransaction)
    { hash := hash64 } (List.replicate 32 170) rfl rfl (by decide)

/-- C1 (code evidence): with the default format, a found transaction that
succeeded and carries one diagnostic event yields a response whose status
is SUCCESS and whose diagnosticEventsXdr field is populated, although the
response type documents that field as present only when the status is
FAILED. -/
theorem getTransaction_success_attaches_diagnostics :
    (GetTransaction (Except.ok exRange) (Except.ok exSuccessTx) { hash := hash64 }).toOption.map
      (fun resp => (resp.status, resp.diagnosticEventsXdr))
      = some (TransactionStatusSuccess, ["AA=="]) := by
  decide

end SorobanRPC
